import Mathlib

/-!
Verification development for the review pipeline of the ai-code-review-git-hook
repository.  The Python modules under src/ai_code_review are shallowly embedded:
pure functions become Lean functions, Python dicts become association lists in
iteration order, machine integers become Nat, Python floats used for cost
accounting become exact rationals, and raising an exception becomes returning an
Except value.  Standard-library and third-party effects that the code merely
calls (fnmatch.fnmatch, json.loads, the network call of boto3) are taken as
explicit function parameters, so every theorem quantifies over their behaviour.
-/

namespace AICodeReview

/-- Embeds the dataclass FileChange of git/operations.py.  The line counters are
natural numbers because the diff parser only ever produces non-negative counts. -/
structure FileChange where
  filename : String
  status : String
  lines_added : Nat
  lines_removed : Nat
  diff : String
  old_filename : Option String := none
deriving DecidableEq

/-- Embeds the git section of the configuration consumed by
ChangeAnalyzer.__init__ in git/analyzer.py. -/
structure AnalyzerConfig where
  exclude_patterns : List String
  include_patterns : List String
  binary_file_extensions : List String
  max_diff_size : Nat
  max_files : Nat

/-- Embeds the dataclass AnalysisResult of git/analyzer.py.  The dict
filtered_changes is an association list in insertion order. -/
structure AnalysisResult where
  filtered_changes : List (String × FileChange)
  excluded_files : List String
  binary_files : List String
  large_files : List String
  total_lines_added : Nat
  total_lines_removed : Nat
  file_count : Nat
deriving DecidableEq

/-- Embeds ChangeAnalyzer._should_exclude_file: some exclude pattern fnmatches
the filename.  The parameter fnmatch stands for fnmatch.fnmatch of the Python
standard library, applied as fnmatch filename pattern. -/
def should_exclude_file (fnmatch : String → String → Bool) (cfg : AnalyzerConfig)
    (filename : String) : Bool :=
  cfg.exclude_patterns.any (fun pattern => fnmatch filename pattern)

/-- Embeds ChangeAnalyzer._should_include_file: vacuously true without include
patterns, otherwise some include pattern must fnmatch the filename. -/
def should_include_file (fnmatch : String → String → Bool) (cfg : AnalyzerConfig)
    (filename : String) : Bool :=
  if cfg.include_patterns.isEmpty then true
  else cfg.include_patterns.any (fun pattern => fnmatch filename pattern)

/-- Splits a character list on the slash separator. -/
def splitOnSlash : List Char → List (List Char)
  | [] => [[]]
  | c :: rest =>
    let r := splitOnSlash rest
    if c = '/' then [] :: r
    else
      match r with
      | [] => [[c]]
      | h :: t => (c :: h) :: t

/-- Embeds the final path component used by pathlib for Path(filename).suffix:
empty components and a pure trailing slash are ignored by pathlib. -/
def pathName (filename : String) : String :=
  match ((splitOnSlash filename.data).filter (fun s => !s.isEmpty)).getLast? with
  | some n => String.mk n
  | none => ""

/-- Embeds Path(filename).suffix of pathlib: the substring of the final
component from its last dot, non-empty only when that dot is neither the first
nor the last character of the component. -/
def pathSuffix (filename : String) : String :=
  let cs := (pathName filename).data
  match (cs.reverse.findIdx? (fun c => c = '.')) with
  | none => ""
  | some k =>
    let i := cs.length - 1 - k
    if 0 < i ∧ i < cs.length - 1 then String.mk (cs.drop i) else ""

/-- Embeds ChangeAnalyzer._is_binary_file: the lower-cased extension is in the
configured binary extension list. -/
def is_binary_file (cfg : AnalyzerConfig) (filename : String) : Bool :=
  let file_ext := String.mk ((pathSuffix filename).data.map Char.toLower)
  cfg.binary_file_extensions.contains file_ext

/-- Intermediate state of the filtering loop of ChangeAnalyzer.analyze_changes
(lines 60 to 97 of git/analyzer.py), before the max-files cap is applied. -/
structure FilterPhase where
  filtered_changes : List (String × FileChange)
  excluded_files : List String
  binary_files : List String
  large_files : List String
  total_lines_added : Nat
  total_lines_removed : Nat
deriving DecidableEq

/-- Embeds the per-file filtering loop of ChangeAnalyzer.analyze_changes.  The
Python loop appends to the buckets left to right; consing the head decision onto
the recursive result of the tail produces the same lists. -/
def analyze_filter_phase (fnmatch : String → String → Bool) (cfg : AnalyzerConfig) :
    List (String × FileChange) → FilterPhase
  | [] => ⟨[], [], [], [], 0, 0⟩
  | (filename, change) :: rest =>
    let r := analyze_filter_phase fnmatch cfg rest
    if should_exclude_file fnmatch cfg filename then
      { r with excluded_files := filename :: r.excluded_files }
    else if !cfg.include_patterns.isEmpty && !should_include_file fnmatch cfg filename then
      { r with excluded_files := filename :: r.excluded_files }
    else if is_binary_file cfg filename then
      { r with binary_files := filename :: r.binary_files }
    else if change.lines_added + change.lines_removed > cfg.max_diff_size then
      { r with large_files := filename :: r.large_files }
    else
      { r with filtered_changes := (filename, change) :: r.filtered_changes,
               total_lines_added := change.lines_added + r.total_lines_added,
               total_lines_removed := change.lines_removed + r.total_lines_removed }

/-- Size of a change, the sort key lines_added + lines_removed used on line 106
of git/analyzer.py. -/
def changeSize (p : String × FileChange) : Nat :=
  p.2.lines_added + p.2.lines_removed

/-- Inserts an item into a list already sorted by descending changeSize, before
the first element whose size does not exceed it. -/
def insertBySizeDesc (x : String × FileChange) :
    List (String × FileChange) → List (String × FileChange)
  | [] => [x]
  | y :: ys => if changeSize y ≤ changeSize x then x :: y :: ys else y :: insertBySizeDesc x ys

/-- Embeds sorted(filtered_changes.items(), key lines_added + lines_removed,
reverse) on lines 104 to 108 of git/analyzer.py.  Python sorted is stable, and a
stable descending sort is uniquely determined; this insertion sort realizes it
because each element is inserted before the later elements of equal size. -/
def sortBySizeDesc : List (String × FileChange) → List (String × FileChange)
  | [] => []
  | x :: xs => insertBySizeDesc x (sortBySizeDesc xs)

/-- Embeds ChangeAnalyzer.analyze_changes of git/analyzer.py: the filtering loop
followed by the max-files cap and the construction of the AnalysisResult. -/
def analyze_changes (fnmatch : String → String → Bool) (cfg : AnalyzerConfig)
    (changes : List (String × FileChange)) : AnalysisResult :=
  let fp := analyze_filter_phase fnmatch cfg changes
  let capped :=
    if fp.filtered_changes.length > cfg.max_files then
      let sorted_files := sortBySizeDesc fp.filtered_changes
      (sorted_files.take cfg.max_files,
       fp.excluded_files ++ (sorted_files.drop cfg.max_files).map Prod.fst)
    else (fp.filtered_changes, fp.excluded_files)
  { filtered_changes := capped.1,
    excluded_files := capped.2,
    binary_files := fp.binary_files,
    large_files := fp.large_files,
    total_lines_added := fp.total_lines_added,
    total_lines_removed := fp.total_lines_removed,
    file_count := capped.1.length }

/-- Position of the first occurrence of x in l; length of l when x is absent. -/
def posIn (l : List (String × FileChange)) (x : String × FileChange) : Nat :=
  match l with
  | [] => 0
  | y :: ys => if y = x then 0 else posIn ys x + 1

/-- Strict priority order used to specify the max-files cap: x beats y when it
has a strictly larger change size, or the same size and an earlier position in
the survivor list (the original iteration order of the Python dict). -/
def ltRank (l : List (String × FileChange)) (x y : String × FileChange) : Prop :=
  changeSize y < changeSize x ∨ (changeSize x = changeSize y ∧ posIn l x < posIn l y)

instance (l : List (String × FileChange)) (x y : String × FileChange) :
    Decidable (ltRank l x y) := by
  unfold ltRank; exact inferInstance

/-- Number of survivors that beat x in the priority order: x is kept by the cap
exactly when fewer than max_files survivors beat it. -/
def capRank (l : List (String × FileChange)) (x : String × FileChange) : Nat :=
  l.countP (fun y => decide (ltRank l y x))

theorem ltRank_irrefl (l : List (String × FileChange)) (x : String × FileChange) :
    ¬ ltRank l x x := by
  rintro (h | ⟨-, h⟩) <;> exact lt_irrefl _ h

theorem ltRank_asymm (l : List (String × FileChange)) {x y : String × FileChange}
    (h : ltRank l x y) : ¬ ltRank l y x := by
  rcases h with h | ⟨he, hi⟩ <;> rintro (h' | ⟨he', hi'⟩) <;> omega

theorem ltRank_size_le (l : List (String × FileChange)) {x y : String × FileChange}
    (h : ltRank l x y) : changeSize y ≤ changeSize x := by
  rcases h with h | ⟨he, -⟩ <;> omega

theorem posIn_cons_self (t : List (String × FileChange)) (a : String × FileChange) :
    posIn (a :: t) a = 0 := by
  simp [posIn]

theorem posIn_cons_ne (t : List (String × FileChange)) {a x : String × FileChange}
    (h : x ≠ a) : posIn (a :: t) x = posIn t x + 1 := by
  simp [posIn, Ne.symm h]

theorem ltRank_cons {t : List (String × FileChange)} {a x y : String × FileChange}
    (hxa : x ≠ a) (hya : y ≠ a) : (ltRank (a :: t) x y ↔ ltRank t x y) := by
  unfold ltRank
  rw [posIn_cons_ne t hxa, posIn_cons_ne t hya]
  omega

theorem perm_insertBySizeDesc (x : String × FileChange) :
    ∀ t : List (String × FileChange), (insertBySizeDesc x t).Perm (x :: t)
  | [] => List.Perm.refl _
  | y :: ys => by
    unfold insertBySizeDesc
    split
    · exact List.Perm.refl _
    · exact ((perm_insertBySizeDesc x ys).cons y).trans (List.Perm.swap x y ys)

theorem mem_insertBySizeDesc {x b : String × FileChange} {t : List (String × FileChange)}
    (h : b ∈ insertBySizeDesc x t) : b = x ∨ b ∈ t := by
  have := (perm_insertBySizeDesc x t).mem_iff.mp h
  simpa using this

theorem sortBySizeDesc_perm : ∀ l : List (String × FileChange), (sortBySizeDesc l).Perm l
  | [] => List.Perm.refl _
  | x :: xs =>
    (perm_insertBySizeDesc x (sortBySizeDesc xs)).trans ((sortBySizeDesc_perm xs).cons x)

theorem pairwise_insertBySizeDesc {R : (String × FileChange) → (String × FileChange) → Prop}
    (hRw : ∀ u v, R u v → changeSize v ≤ changeSize u) {x : String × FileChange} :
    ∀ {t : List (String × FileChange)}, t.Pairwise R →
    (∀ b ∈ t, changeSize x < changeSize b → R b x) →
    (∀ b ∈ t, changeSize b ≤ changeSize x → R x b) →
    (insertBySizeDesc x t).Pairwise R
  | [], _, _, _ => List.pairwise_singleton R x
  | y :: ys, hp, h1, h2 => by
    rcases List.pairwise_cons.mp hp with ⟨hy, hys⟩
    unfold insertBySizeDesc
    split
    · rename_i hle
      refine List.pairwise_cons.mpr ⟨?_, hp⟩
      intro b hb
      rcases List.mem_cons.mp hb with rfl | hb
      · exact h2 b (List.mem_cons_self _ _) hle
      · exact h2 b (List.mem_cons_of_mem _ hb) (le_trans (hRw y b (hy b hb)) hle)
    · rename_i hgt
      push_neg at hgt
      refine List.pairwise_cons.mpr ⟨?_, ?_⟩
      · intro b hb
        rcases mem_insertBySizeDesc hb with rfl | hb
        · exact h1 y (List.mem_cons_self _ _) hgt
        · exact hy b hb
      · exact pairwise_insertBySizeDesc hRw hys
          (fun b hb hlt => h1 b (List.mem_cons_of_mem _ hb) hlt)
          (fun b hb hle => h2 b (List.mem_cons_of_mem _ hb) hle)

theorem pairwise_sortBySizeDesc :
    ∀ {l : List (String × FileChange)}, l.Nodup → (sortBySizeDesc l).Pairwise (ltRank l)
  | [], _ => List.Pairwise.nil
  | a :: t, hnd => by
    rcases List.nodup_cons.mp hnd with ⟨ha, hndt⟩
    have hmem : ∀ b ∈ sortBySizeDesc t, b ∈ t :=
      fun b hb => (sortBySizeDesc_perm t).mem_iff.mp hb
    have hne : ∀ b ∈ sortBySizeDesc t, b ≠ a :=
      fun b hb h => ha (h ▸ hmem b hb)
    have ih : (sortBySizeDesc t).Pairwise (ltRank (a :: t)) :=
      (pairwise_sortBySizeDesc hndt).imp_of_mem
        (fun hu hv h => (ltRank_cons (hne _ hu) (hne _ hv)).mpr h)
    show (insertBySizeDesc a (sortBySizeDesc t)).Pairwise (ltRank (a :: t))
    refine pairwise_insertBySizeDesc (fun u v h => ltRank_size_le _ h) ih ?_ ?_
    · intro b _ hlt
      exact Or.inl hlt
    · intro b hb hle
      rcases lt_or_eq_of_le hle with hlt | heq
      · exact Or.inl hlt
      · refine Or.inr ⟨heq.symm, ?_⟩
        rw [posIn_cons_self, posIn_cons_ne t (hne b hb)]
        exact Nat.succ_pos _

theorem mem_take_iff_countP_lt {α : Type} {R : α → α → Prop} [DecidableRel R] :
    ∀ (s : List α), s.Pairwise R → (∀ x ∈ s, ¬ R x x) →
    (∀ x ∈ s, ∀ y ∈ s, R x y → ¬ R y x) →
    ∀ (N : Nat) (x : α), x ∈ s →
    (x ∈ s.take N ↔ s.countP (fun y => decide (R y x)) < N)
  | [], _, _, _, _, _, hx => absurd hx (List.not_mem_nil _)
  | a :: t, hp, hirr, hasym, N, x, hx => by
    rcases List.pairwise_cons.mp hp with ⟨hat, hpt⟩
    cases N with
    | zero => simp
    | succ N =>
      by_cases hxa : x = a
      · subst hxa
        have hcount : t.countP (fun y => decide (R y x)) = 0 := by
          apply List.countP_eq_zero.mpr
          intro y hy
          simp only [decide_eq_true_eq]
          exact hasym x (List.mem_cons_self _ _) y (List.mem_cons_of_mem _ hy) (hat y hy)
        simp [List.countP_cons, hcount, hirr x hx]
      · have hxt : x ∈ t := (List.mem_cons.mp hx).resolve_left hxa
        have hRax : R a x := hat x hxt
        have ih := mem_take_iff_countP_lt t hpt
          (fun u hu => hirr u (List.mem_cons_of_mem _ hu))
          (fun u hu v hv => hasym u (List.mem_cons_of_mem _ hu) v (List.mem_cons_of_mem _ hv))
          N x hxt
        have hdec : decide (R a x) = true := decide_eq_true hRax
        simp only [List.take_succ_cons, List.mem_cons, hxa, false_or,
          List.countP_cons, hdec, if_true]
        rw [ih]
        omega

theorem filter_phase_sublist (fnmatch : String → String → Bool) (cfg : AnalyzerConfig) :
    ∀ changes : List (String × FileChange),
      (analyze_filter_phase fnmatch cfg changes).filtered_changes.Sublist changes
  | [] => List.Sublist.refl _
  | (filename, change) :: rest => by
    have ih := filter_phase_sublist fnmatch cfg rest
    unfold analyze_filter_phase
    split
    · exact ih.cons _
    · split
      · exact ih.cons _
      · split
        · exact ih.cons _
        · split
          · exact ih.cons _
          · exact ih.cons₂ _

theorem filter_phase_count (fnmatch : String → String → Bool) (cfg : AnalyzerConfig) :
    ∀ (changes : List (String × FileChange)) (f : String),
      ((analyze_filter_phase fnmatch cfg changes).filtered_changes.map Prod.fst).count f
        + (analyze_filter_phase fnmatch cfg changes).excluded_files.count f
        + (analyze_filter_phase fnmatch cfg changes).binary_files.count f
        + (analyze_filter_phase fnmatch cfg changes).large_files.count f
      = (changes.map Prod.fst).count f
  | [], f => rfl
  | (filename, change) :: rest, f => by
    have ih := filter_phase_count fnmatch cfg rest f
    unfold analyze_filter_phase
    split
    · simp only [List.map_cons, List.count_cons]
      omega
    · split
      · simp only [List.map_cons, List.count_cons]
        omega
      · split
        · simp only [List.map_cons, List.count_cons]
          omega
        · split
          · simp only [List.map_cons, List.count_cons]
            omega
          · simp only [List.map_cons, List.count_cons]
            omega

theorem filter_phase_totals (fnmatch : String → String → Bool) (cfg : AnalyzerConfig) :
    ∀ changes : List (String × FileChange),
      (analyze_filter_phase fnmatch cfg changes).total_lines_added
        = ((analyze_filter_phase fnmatch cfg changes).filtered_changes.map
            (fun p => p.2.lines_added)).sum
      ∧ (analyze_filter_phase fnmatch cfg changes).total_lines_removed
        = ((analyze_filter_phase fnmatch cfg changes).filtered_changes.map
            (fun p => p.2.lines_removed)).sum
  | [] => ⟨rfl, rfl⟩
  | (filename, change) :: rest => by
    have ih := filter_phase_totals fnmatch cfg rest
    unfold analyze_filter_phase
    split
    · exact ih
    · split
      · exact ih
      · split
        · exact ih
        · split
          · exact ih
          · simpa using ih

theorem analyze_changes_count (fnmatch : String → String → Bool) (cfg : AnalyzerConfig)
    (changes : List (String × FileChange)) (f : String) :
    ((analyze_changes fnmatch cfg changes).filtered_changes.map Prod.fst).count f
      + (analyze_changes fnmatch cfg changes).excluded_files.count f
    = ((analyze_filter_phase fnmatch cfg changes).filtered_changes.map Prod.fst).count f
      + (analyze_filter_phase fnmatch cfg changes).excluded_files.count f := by
  unfold analyze_changes
  set fp := analyze_filter_phase fnmatch cfg changes
  by_cases h : fp.filtered_changes.length > cfg.max_files
  · simp only [h, if_pos, if_true]
    set s := sortBySizeDesc fp.filtered_changes with hs
    have hmapperm : (s.map Prod.fst).Perm (fp.filtered_changes.map Prod.fst) :=
      (sortBySizeDesc_perm fp.filtered_changes).map Prod.fst
    have hsplit : (s.take cfg.max_files).map Prod.fst ++ (s.drop cfg.max_files).map Prod.fst
        = s.map Prod.fst := by
      rw [← List.map_append, List.take_append_drop]
    have hcnt := hmapperm.count_eq f
    rw [← hsplit] at hcnt
    simp only [List.count_append] at hcnt ⊢
    omega
  · simp only [h, if_neg, if_false]

theorem analyze_changes_length_le (fnmatch : String → String → Bool) (cfg : AnalyzerConfig)
    (changes : List (String × FileChange)) :
    (analyze_changes fnmatch cfg changes).filtered_changes.length ≤ cfg.max_files := by
  unfold analyze_changes
  set fp := analyze_filter_phase fnmatch cfg changes
  by_cases h : fp.filtered_changes.length > cfg.max_files
  · simp only [h, if_pos, if_true, List.length_take]
    exact min_le_left _ _
  · simp only [h, if_neg, if_false]
    omega

/-- Claim C1: for every input change map and configuration, analyze_changes
places each input filename in exactly one of the four buckets filtered_changes,
excluded_files, binary_files, large_files; filtered_changes has at most
max_files entries; and an empty input yields a result with all buckets empty. -/
theorem claim_C1 (fnmatch : String → String → Bool) (cfg : AnalyzerConfig)
    (changes : List (String × FileChange)) (hnd : (changes.map Prod.fst).Nodup) :
    (∀ f ∈ changes.map Prod.fst,
      ((analyze_changes fnmatch cfg changes).filtered_changes.map Prod.fst).count f
        + (analyze_changes fnmatch cfg changes).excluded_files.count f
        + (analyze_changes fnmatch cfg changes).binary_files.count f
        + (analyze_changes fnmatch cfg changes).large_files.count f = 1)
    ∧ (∀ f : String, f ∉ changes.map Prod.fst →
      ((analyze_changes fnmatch cfg changes).filtered_changes.map Prod.fst).count f
        + (analyze_changes fnmatch cfg changes).excluded_files.count f
        + (analyze_changes fnmatch cfg changes).binary_files.count f
        + (analyze_changes fnmatch cfg changes).large_files.count f = 0)
    ∧ (analyze_changes fnmatch cfg changes).filtered_changes.length ≤ cfg.max_files
    ∧ analyze_changes fnmatch cfg [] = ⟨[], [], [], [], 0, 0, 0⟩ := by
  have hbl : (analyze_changes fnmatch cfg changes).binary_files
      = (analyze_filter_phase fnmatch cfg changes).binary_files := rfl
  have hlg : (analyze_changes fnmatch cfg changes).large_files
      = (analyze_filter_phase fnmatch cfg changes).large_files := rfl
  have hsum : ∀ f : String,
      ((analyze_changes fnmatch cfg changes).filtered_changes.map Prod.fst).count f
        + (analyze_changes fnmatch cfg changes).excluded_files.count f
        + (analyze_changes fnmatch cfg changes).binary_files.count f
        + (analyze_changes fnmatch cfg changes).large_files.count f
      = (changes.map Prod.fst).count f := by
    intro f
    have h1 := analyze_changes_count fnmatch cfg changes f
    have h2 := filter_phase_count fnmatch cfg changes f
    rw [hbl, hlg]
    omega
  refine ⟨?_, ?_, analyze_changes_length_le fnmatch cfg changes, rfl⟩
  · intro f hf
    rw [hsum f]
    exact List.count_eq_one_of_mem hnd hf
  · intro f hf
    rw [hsum f]
    exact List.count_eq_zero_of_not_mem hf

/-- Claim C2: when the survivor count M exceeds max_files = N, analyze_changes
keeps exactly the N survivors beaten by fewer than N others in the priority
order (larger lines_added + lines_removed first, ties by original iteration
order) and appends the names of the other M - N survivors to excluded_files. -/
theorem claim_C2 (fnmatch : String → String → Bool) (cfg : AnalyzerConfig)
    (changes : List (String × FileChange)) (hnd : (changes.map Prod.fst).Nodup)
    (hM : cfg.max_files < (analyze_filter_phase fnmatch cfg changes).filtered_changes.length) :
    (analyze_changes fnmatch cfg changes).filtered_changes.length = cfg.max_files
    ∧ (∀ x : String × FileChange,
        x ∈ (analyze_changes fnmatch cfg changes).filtered_changes ↔
          x ∈ (analyze_filter_phase fnmatch cfg changes).filtered_changes
          ∧ capRank (analyze_filter_phase fnmatch cfg changes).filtered_changes x
              < cfg.max_files)
    ∧ ∃ tail : List String,
        (analyze_changes fnmatch cfg changes).excluded_files
          = (analyze_filter_phase fnmatch cfg changes).excluded_files ++ tail
        ∧ tail.length
            = (analyze_filter_phase fnmatch cfg changes).filtered_changes.length
                - cfg.max_files
        ∧ ∀ x ∈ (analyze_filter_phase fnmatch cfg changes).filtered_changes,
            cfg.max_files ≤ capRank (analyze_filter_phase fnmatch cfg changes).filtered_changes x →
            x.1 ∈ tail := by
  set fp := analyze_filter_phase fnmatch cfg changes with hfp
  set l := fp.filtered_changes with hl
  set s := sortBySizeDesc l with hsdef
  have hperm : s.Perm l := sortBySizeDesc_perm l
  have hlnd : l.Nodup :=
    (filter_phase_sublist fnmatch cfg changes).nodup (List.Nodup.of_map Prod.fst hnd)
  have hpw : s.Pairwise (ltRank l) := pairwise_sortBySizeDesc hlnd
  have hchar : ∀ x ∈ s, (x ∈ s.take cfg.max_files ↔ capRank l x < cfg.max_files) := by
    intro x hx
    have h := mem_take_iff_countP_lt s hpw
      (fun u _ => ltRank_irrefl l u)
      (fun u _ v _ h => ltRank_asymm l h)
      cfg.max_files x hx
    rwa [hperm.countP_eq] at h
  have hres : (analyze_changes fnmatch cfg changes).filtered_changes = s.take cfg.max_files
      ∧ (analyze_changes fnmatch cfg changes).excluded_files
        = fp.excluded_files ++ (s.drop cfg.max_files).map Prod.fst := by
    have hgt : fp.filtered_changes.length > cfg.max_files := hM
    constructor
    · show (analyze_changes fnmatch cfg changes).filtered_changes = _
      unfold analyze_changes
      rw [← hfp]
      simp only [hgt, if_pos, if_true]
    · show (analyze_changes fnmatch cfg changes).excluded_files = _
      unfold analyze_changes
      rw [← hfp]
      simp only [hgt, if_pos, if_true]
  have hslen : s.length = l.length := hperm.length_eq
  refine ⟨?_, ?_, ?_⟩
  · rw [hres.1, List.length_take, hslen]
    exact Nat.min_eq_left (le_of_lt hM)
  · intro x
    rw [hres.1]
    constructor
    · intro hx
      have hxs : x ∈ s := List.mem_of_mem_take hx
      exact ⟨hperm.mem_iff.mp hxs, (hchar x hxs).mp hx⟩
    · rintro ⟨hxl, hrk⟩
      exact (hchar x (hperm.mem_iff.mpr hxl)).mpr hrk
  · refine ⟨(s.drop cfg.max_files).map Prod.fst, hres.2, ?_, ?_⟩
    · rw [List.length_map, List.length_drop, hslen]
    · intro x hxl hrk
      have hxs : x ∈ s := hperm.mem_iff.mpr hxl
      have hxnt : x ∉ s.take cfg.max_files := by
        intro hx
        exact absurd ((hchar x hxs).mp hx) (by omega)
      have : x ∈ s.take cfg.max_files ++ s.drop cfg.max_files := by
        rw [List.take_append_drop]; exact hxs
      rcases List.mem_append.mp this with h | h
      · exact absurd h hxnt
      · exact List.mem_map_of_mem Prod.fst h

/-- Claim C9: when the max-files cap fires, the totals of the AnalysisResult
still equal the sums over all pre-cap survivors, including the files the cap
moved into excluded_files; the returned filtered_changes is strictly smaller. -/
theorem claim_C9 (fnmatch : String → String → Bool) (cfg : AnalyzerConfig)
    (changes : List (String × FileChange))
    (hM : cfg.max_files < (analyze_filter_phase fnmatch cfg changes).filtered_changes.length) :
    (analyze_changes fnmatch cfg changes).total_lines_added
      = ((analyze_filter_phase fnmatch cfg changes).filtered_changes.map
          (fun p => p.2.lines_added)).sum
    ∧ (analyze_changes fnmatch cfg changes).total_lines_removed
      = ((analyze_filter_phase fnmatch cfg changes).filtered_changes.map
          (fun p => p.2.lines_removed)).sum
    ∧ (analyze_changes fnmatch cfg changes).filtered_changes.length
      < (analyze_filter_phase fnmatch cfg changes).filtered_changes.length := by
  have htot := filter_phase_totals fnmatch cfg changes
  have hta : (analyze_changes fnmatch cfg changes).total_lines_added
      = (analyze_filter_phase fnmatch cfg changes).total_lines_added := rfl
  have htr : (analyze_changes fnmatch cfg changes).total_lines_removed
      = (analyze_filter_phase fnmatch cfg changes).total_lines_removed := rfl
  refine ⟨hta.trans htot.1, htr.trans htot.2, ?_⟩
  calc (analyze_changes fnmatch cfg changes).filtered_changes.length
      ≤ cfg.max_files := analyze_changes_length_le fnmatch cfg changes
    _ < _ := hM

/-- Concrete fnmatch stand-in used by witnesses: no pattern ever matches. -/
def witnessFnmatch : String → String → Bool := fun _ _ => false

/-- Concrete configuration used by witnesses: no filters, max_files of one. -/
def witnessCfg : AnalyzerConfig :=
  { exclude_patterns := [], include_patterns := [], binary_file_extensions := [],
    max_diff_size := 10000, max_files := 1 }

/-- Concrete change set used by witnesses: two surviving files. -/
def witnessChanges : List (String × FileChange) :=
  [("a.py", { filename := "a.py", status := "M", lines_added := 5, lines_removed := 2,
              diff := "diff-a" }),
   ("b.py", { filename := "b.py", status := "M", lines_added := 9, lines_removed := 1,
              diff := "diff-b" })]

/-- Witness for claim C1 at a concrete two-file input. -/
theorem claim_C1_witness :
    (witnessChanges.map Prod.fst).Nodup
    ∧ (∀ f ∈ witnessChanges.map Prod.fst,
        ((analyze_changes witnessFnmatch witnessCfg witnessChanges).filtered_changes.map
            Prod.fst).count f
          + (analyze_changes witnessFnmatch witnessCfg witnessChanges).excluded_files.count f
          + (analyze_changes witnessFnmatch witnessCfg witnessChanges).binary_files.count f
          + (analyze_changes witnessFnmatch witnessCfg witnessChanges).large_files.count f
          = 1) :=
  ⟨by decide, (claim_C1 witnessFnmatch witnessCfg witnessChanges (by decide)).1⟩

/-- Witness for claim C2 at a concrete two-survivor input with max_files one. -/
theorem claim_C2_witness :
    ((witnessChanges.map Prod.fst).Nodup
      ∧ witnessCfg.max_files
          < (analyze_filter_phase witnessFnmatch witnessCfg witnessChanges).filtered_changes.length)
    ∧ (analyze_changes witnessFnmatch witnessCfg witnessChanges).filtered_changes.length
        = witnessCfg.max_files :=
  ⟨⟨by decide, by decide⟩,
   (claim_C2 witnessFnmatch witnessCfg witnessChanges (by decide) (by decide)).1⟩

/-- Witness for claim C9 at a concrete input where the cap fires. -/
theorem claim_C9_witness :
    (witnessCfg.max_files
        < (analyze_filter_phase witnessFnmatch witnessCfg witnessChanges).filtered_changes.length)
    ∧ (analyze_changes witnessFnmatch witnessCfg witnessChanges).total_lines_added
        = ((analyze_filter_phase witnessFnmatch witnessCfg witnessChanges).filtered_changes.map
            (fun p => p.2.lines_added)).sum :=
  ⟨by decide, (claim_C9 witnessFnmatch witnessCfg witnessChanges (by decide)).1⟩

/-- Minimal JSON value model for the payloads handled by
ReviewEngine._parse_review_response; json.loads of the standard library is
taken as an oracle returning such a value or a decode-error string. -/
inductive Json where
  | null
  | bool (b : Bool)
  | num (q : ℚ)
  | str (s : String)
  | arr (elems : List Json)
  | obj (entries : List (String × Json))

/-- Embeds the dataclass ReviewIssue of review/models.py.  Fields that Python
fills with arbitrary JSON payload values are typed Json; severity is a String
because every construction site in the engine stores a string there (the
coercion of lines 284 to 286 runs right after construction). -/
structure ReviewIssue where
  rule : Json
  severity : String
  line : Option Json
  message : Json
  suggestion : Option Json := none
  file_path : Option String := none

/-- Embeds the dataclass FileReviewResult of review/models.py; cost_estimate is
an exact rational standing for the Python float. -/
structure FileReviewResult where
  filename : String
  issues : List ReviewIssue
  summary : Json
  total_issues : Nat
  error_count : Nat
  warning_count : Nat
  info_count : Nat
  suggestion_count : Nat
  tokens_used : Nat
  cost_estimate : ℚ

/-- Embeds the dataclass ReviewResult of review/models.py. -/
structure ReviewResult where
  files : List (String × FileReviewResult)
  total_files : Nat
  total_issues : Nat
  total_errors : Nat
  total_warnings : Nat
  total_info : Nat
  total_suggestions : Nat
  total_tokens : Nat
  total_cost : ℚ
  summary : String

/-- Embeds the dataclass BedrockResponse of bedrock/client.py. -/
structure BedrockResponse where
  content : String
  model_id : String
  input_tokens : Nat
  output_tokens : Nat
  stop_reason : String
  cost_estimate : ℚ := 0

/-- Embeds the review section of the configuration consumed by
ReviewEngine.__init__ in review/engine.py. -/
structure ReviewConfig where
  severity_threshold : String
  max_issues_per_file : Nat

/-- The four severity strings enumerated on line 285 of review/engine.py. -/
def validSeverities : List String := ["error", "warning", "info", "suggestion"]

/-- Embeds the severity coercion of lines 284 to 286 of review/engine.py as it
acts on string-valued severities: a value outside the enumerated list is
replaced by info. -/
def coerceSeverity (s : String) : String :=
  if s ∈ validSeverities then s else "info"

/-- The severity_levels dict of ReviewEngine._meets_severity_threshold. -/
def severity_levels : List (String × Nat) :=
  [("suggestion", 1), ("info", 2), ("warning", 3), ("error", 4)]

/-- Embeds ReviewEngine._meets_severity_threshold: the issue level, defaulted
to two, must reach the threshold level, defaulted to three. -/
def meets_severity_threshold (threshold severity : String) : Bool :=
  let threshold_level := (severity_levels.lookup threshold).getD 3
  let issue_level := (severity_levels.lookup severity).getD 2
  decide (threshold_level ≤ issue_level)

/-- Embeds ReviewEngine._create_error_result of review/engine.py. -/
def create_error_result (filename : String) (error_message : String) : FileReviewResult :=
  let error_issue : ReviewIssue :=
    { rule := .str "system", severity := "error", line := none,
      message := .str ("Review failed: " ++ error_message), file_path := some filename }
  { filename := filename, issues := [error_issue],
    summary := .str ("Review failed: " ++ error_message),
    total_issues := 1, error_count := 1, warning_count := 0, info_count := 0,
    suggestion_count := 0, tokens_used := 0, cost_estimate := 0 }

/-- Embeds the construction of one ReviewIssue from one entry of the issues
array (lines 273 to 286 of review/engine.py).  A non-dict entry raises inside
the per-issue try block and is skipped by continue, hence none.  The value
stored for severity is coerced exactly as the code does: string values outside
the enumerated four, and non-string values, become info. -/
def parseIssueEntry (filename : String) (issue_data : Json) : Option ReviewIssue :=
  match issue_data with
  | .obj entries =>
    let sevRaw := (entries.lookup "severity").getD (.str "info")
    some { rule := (entries.lookup "rule").getD (.str "unknown"),
           severity :=
             match sevRaw with
             | .str s => coerceSeverity s
             | _ => "info",
           line := entries.lookup "line",
           message := (entries.lookup "message").getD (.str ""),
           suggestion := entries.lookup "suggestion",
           file_path := some filename }
  | _ => none

/-- Embeds the issues loop of lines 272 to 294 of review/engine.py: parse each
entry, skip unparseable ones, and keep an issue only when it meets the severity
threshold, preserving the model-returned order. -/
def parse_issues (threshold filename : String) (items : List Json) : List ReviewIssue :=
  items.filterMap fun issue_data =>
    match parseIssueEntry filename issue_data with
    | some issue =>
      if meets_severity_threshold threshold issue.severity then some issue else none
    | none => none

/-- Embeds lines 296 to 318 of review/engine.py: cap the retained issues at
max_issues_per_file, derive the per-severity counters, and assemble the
FileReviewResult. -/
def build_file_result (cfg : ReviewConfig) (filename : String) (response : BedrockResponse)
    (entries : List (String × Json)) (items : List Json) : FileReviewResult :=
  let issues := (parse_issues cfg.severity_threshold filename items).take cfg.max_issues_per_file
  { filename := filename,
    issues := issues,
    summary := (entries.lookup "summary").getD (.str "No summary provided"),
    total_issues := issues.length,
    error_count := issues.countP (fun i => i.severity == "error"),
    warning_count := issues.countP (fun i => i.severity == "warning"),
    info_count := issues.countP (fun i => i.severity == "info"),
    suggestion_count := issues.countP (fun i => i.severity == "suggestion"),
    tokens_used := response.input_tokens + response.output_tokens,
    cost_estimate := response.cost_estimate }

/-- Error text produced when the brace search of lines 258 to 262 fails: the
ValidationError string prefixed by the except-branch of lines 323 to 325. -/
def noJsonMessage : String :=
  "Invalid response format: Validation error: No JSON found in response"

/-- Error text produced when the parsed object has no issues key (line 268),
prefixed by the except-branch of lines 323 to 325. -/
def missingIssuesMessage : String :=
  "Invalid response format: Validation error: Response missing \u0027issues\u0027 field"

/-- Embeds the brace extraction of lines 257 to 264 of review/engine.py: the
index of the first opening brace and one past the last closing brace delimit
the slice handed to json.loads; none models the json_start of -1 or json_end
of 0 that raise the no-JSON ValidationError. -/
def pyFind (c : Char) : List Char → Option Nat
  | [] => none
  | a :: rest => if a = c then some 0 else (pyFind c rest).map (· + 1)

/-- Index of the last occurrence of c, as str.rfind returns it when found. -/
def pyRFind (c : Char) (s : List Char) : Option Nat :=
  match pyFind c s.reverse with
  | some k => some (s.length - 1 - k)
  | none => none

/-- Embeds str.strip() as used on line 255; ASCII whitespace only, which is all
that model responses contain at their edges. -/
def pyStrip (s : List Char) : List Char :=
  ((s.dropWhile Char.isWhitespace).reverse.dropWhile Char.isWhitespace).reverse

/-- The slice content[json_start:json_end] of line 264, or none when either
brace is missing. -/
def jsonSlice (content : List Char) : Option (List Char) :=
  match pyFind '\x7b' content, pyRFind '\x7d' content with
  | some json_start, some jlast => some ((content.drop json_start).take (jlast + 1 - json_start))
  | _, _ => none

/-- Embeds the handling of the json.loads outcome, lines 265 to 328 of
review/engine.py.  A decode error becomes the invalid-JSON error result.  For a
parsed dict, a missing issues key becomes the missing-issues error result; an
issues array is processed normally; iterating a dict value yields its keys and
iterating a string yields one-character strings, all of which the per-issue
handler skips; other issues values raise TypeError into the generic handler.
The non-dict branches cannot be produced by json.loads on a slice that starts
with an opening brace and are included only for totality; their message texts
approximate the embedded CPython exception text. -/
def handle_parsed_response (cfg : ReviewConfig) (filename : String)
    (response : BedrockResponse) : Except String Json → FileReviewResult
  | .error e => create_error_result filename ("Invalid JSON response: " ++ e)
  | .ok (.obj entries) =>
    match entries.lookup "issues" with
    | none => create_error_result filename missingIssuesMessage
    | some (.arr items) => build_file_result cfg filename response entries items
    | some (.obj inner) =>
      build_file_result cfg filename response entries (inner.map (fun kv => Json.str kv.1))
    | some (.str s) =>
      build_file_result cfg filename response entries
        (s.data.map (fun c => Json.str (String.mk [c])))
    | some _ =>
      create_error_result filename "Parsing error: the issues value is not iterable"
  | .ok (.arr elems) =>
    if elems.any (fun j => match j with | .str s => s == "issues" | _ => false) then
      create_error_result filename "Parsing error: list object has no attribute get"
    else create_error_result filename missingIssuesMessage
  | .ok (.str s) =>
    if "issues".data <:+: s.data then
      create_error_result filename "Parsing error: str object has no attribute get"
    else create_error_result filename missingIssuesMessage
  | .ok _ =>
    create_error_result filename "Parsing error: argument is not iterable"

/-- Embeds ReviewEngine._parse_review_response of review/engine.py, with
json.loads passed in as the oracle jsonLoads. -/
def parse_review_response (jsonLoads : List Char → Except String Json) (cfg : ReviewConfig)
    (filename : String) (response : BedrockResponse) : FileReviewResult :=
  let content := pyStrip response.content.data
  match jsonSlice content with
  | none => create_error_result filename noJsonMessage
  | some json_content => handle_parsed_response cfg filename response (jsonLoads json_content)

/-- Embeds ReviewEngine._review_file_batch of review/engine.py, with the
per-file review call passed in; an exception raised by it is modelled as an
error string and converted into the per-file error result. -/
def review_file_batch
    (review_single_file : String → FileChange → Except String FileReviewResult)
    (batch : List (String × FileChange)) : List (String × FileReviewResult) :=
  batch.map fun p =>
    match review_single_file p.1 p.2 with
    | .ok result => (p.1, result)
    | .error e => (p.1, create_error_result p.1 e)

/-- Result collection over a batching of the change set: results of all batches
are merged into one filename-keyed map, as _review_files_parallel does. -/
def review_batches
    (review_single_file : String → FileChange → Except String FileReviewResult)
    (batches : List (List (String × FileChange))) : List (String × FileReviewResult) :=
  (batches.map (review_file_batch review_single_file)).flatten

/-- Embeds ReviewEngine._aggregate_results of review/engine.py. -/
def aggregate_results (file_results : List (String × FileReviewResult)) : ReviewResult :=
  let total_files := file_results.length
  let total_issues := (file_results.map (fun p => p.2.total_issues)).sum
  let total_errors := (file_results.map (fun p => p.2.error_count)).sum
  let total_warnings := (file_results.map (fun p => p.2.warning_count)).sum
  let total_info := (file_results.map (fun p => p.2.info_count)).sum
  let total_suggestions := (file_results.map (fun p => p.2.suggestion_count)).sum
  let total_tokens := (file_results.map (fun p => p.2.tokens_used)).sum
  let total_cost := (file_results.map (fun p => p.2.cost_estimate)).sum
  let summary :=
    if total_issues = 0 then
      "✅ No issues found in " ++ toString total_files ++ " files"
    else
      "Found " ++ toString total_issues ++ " issues in " ++ toString total_files ++ " files: "
        ++ toString total_errors ++ " errors, " ++ toString total_warnings ++ " warnings, "
        ++ toString total_info ++ " info, " ++ toString total_suggestions ++ " suggestions"
  { files := file_results, total_files := total_files, total_issues := total_issues,
    total_errors := total_errors, total_warnings := total_warnings, total_info := total_info,
    total_suggestions := total_suggestions, total_tokens := total_tokens,
    total_cost := total_cost, summary := summary }

/-- Claim C3: every run-level total of the ReviewResult produced by
_aggregate_results equals the sum, or for total_files the count, of the
corresponding field over all per-file entries. -/
theorem claim_C3 (file_results : List (String × FileReviewResult)) :
    (aggregate_results file_results).total_files = file_results.length
    ∧ (aggregate_results file_results).total_issues
        = (file_results.map (fun p => p.2.total_issues)).sum
    ∧ (aggregate_results file_results).total_errors
        = (file_results.map (fun p => p.2.error_count)).sum
    ∧ (aggregate_results file_results).total_warnings
        = (file_results.map (fun p => p.2.warning_count)).sum
    ∧ (aggregate_results file_results).total_info
        = (file_results.map (fun p => p.2.info_count)).sum
    ∧ (aggregate_results file_results).total_suggestions
        = (file_results.map (fun p => p.2.suggestion_count)).sum
    ∧ (aggregate_results file_results).total_tokens
        = (file_results.map (fun p => p.2.tokens_used)).sum
    ∧ (aggregate_results file_results).total_cost
        = (file_results.map (fun p => p.2.cost_estimate)).sum :=
  ⟨rfl, rfl, rfl, rfl, rfl, rfl, rfl, rfl⟩

/-- Claim C8: severity coercion fixes each of the four enumerated severities,
maps every other string to info, and is therefore idempotent. -/
theorem claim_C8 :
    (∀ s ∈ validSeverities, coerceSeverity s = s)
    ∧ (∀ s : String, s ∉ validSeverities → coerceSeverity s = "info")
    ∧ (∀ s : String, coerceSeverity (coerceSeverity s) = coerceSeverity s) := by
  refine ⟨?_, ?_, ?_⟩
  · intro s hs
    unfold coerceSeverity
    rw [if_pos hs]
  · intro s hs
    unfold coerceSeverity
    rw [if_neg hs]
  · intro s
    by_cases hs : s ∈ validSeverities
    · unfold coerceSeverity
      rw [if_pos hs, if_pos hs]
    · unfold coerceSeverity
      rw [if_neg hs, if_pos (by decide)]

/-- Witness for claim C8 at the concrete severities error and bogus. -/
theorem claim_C8_witness :
    ("error" ∈ validSeverities ∧ coerceSeverity "error" = "error")
    ∧ ("bogus" ∉ validSeverities ∧ coerceSeverity "bogus" = "info") :=
  ⟨⟨by decide, claim_C8.1 "error" (by decide)⟩,
   ⟨by decide, claim_C8.2.1 "bogus" (by decide)⟩⟩

/-- Severity rank modelled from the spec wording: the severities ordered least
to most severe are suggestion, info, warning, error. -/
def specSeverityRank : String → Nat
  | "suggestion" => 1
  | "info" => 2
  | "warning" => 3
  | "error" => 4
  | _ => 0

theorem parseIssueEntry_severity_valid {filename : String} {issue_data : Json}
    {issue : ReviewIssue} (h : parseIssueEntry filename issue_data = some issue) :
    issue.severity ∈ validSeverities := by
  cases issue_data with
  | obj entries =>
    simp only [parseIssueEntry, Option.some.injEq] at h
    subst h
    cases hsev : (entries.lookup "severity").getD (.str "info") with
    | str s =>
      simp only [hsev]
      by_cases hv : s ∈ validSeverities
      · unfold coerceSeverity; rw [if_pos hv]; exact hv
      · unfold coerceSeverity; rw [if_neg hv]; decide
    | null => simp only [hsev]; decide
    | bool b => simp only [hsev]; decide
    | num q => simp only [hsev]; decide
    | arr xs => simp only [hsev]; decide
    | obj kvs => simp only [hsev]; decide
  | null => simp [parseIssueEntry] at h
  | bool b => simp [parseIssueEntry] at h
  | num q => simp [parseIssueEntry] at h
  | str s => simp [parseIssueEntry] at h
  | arr xs => simp [parseIssueEntry] at h

theorem meets_severity_threshold_eq_spec {threshold severity : String}
    (hth : threshold ∈ validSeverities) (hsv : severity ∈ validSeverities) :
    meets_severity_threshold threshold severity
      = decide (specSeverityRank threshold ≤ specSeverityRank severity) := by
  fin_cases hth <;> fin_cases hsv <;> rfl

/-- Claim C7: a parsed issue is retained exactly when its severity rank, in the
spec order suggestion then info then warning then error, reaches the rank of
the configured threshold; retained issues are truncated to the first
max_issues_per_file in model order; with threshold warning a suggestion issue
is dropped and an error issue is retained. -/
theorem claim_C7 (cfg : ReviewConfig) (filename : String) (response : BedrockResponse)
    (entries : List (String × Json)) (items : List Json)
    (hth : cfg.severity_threshold ∈ validSeverities) :
    ((build_file_result cfg filename response entries items).issues
      = (parse_issues cfg.severity_threshold filename items).take cfg.max_issues_per_file)
    ∧ (parse_issues cfg.severity_threshold filename items
        = items.filterMap (fun issue_data =>
            match parseIssueEntry filename issue_data with
            | some issue =>
              if specSeverityRank cfg.severity_threshold ≤ specSeverityRank issue.severity
              then some issue else none
            | none => none))
    ∧ (meets_severity_threshold "warning" "suggestion" = false
        ∧ meets_severity_threshold "warning" "error" = true) := by
  refine ⟨rfl, ?_, by decide, by decide⟩
  unfold parse_issues
  apply List.filterMap_congr
  intro issue_data _
  cases hp : parseIssueEntry filename issue_data with
  | none => rfl
  | some issue =>
    simp only []
    rw [meets_severity_threshold_eq_spec hth (parseIssueEntry_severity_valid hp)]
    by_cases hle : specSeverityRank cfg.severity_threshold ≤ specSeverityRank issue.severity
    · rw [if_pos (decide_eq_true hle), if_pos hle]
    · rw [if_neg (by simpa using hle), if_neg hle]

/-- Concrete response used by engine witnesses. -/
def witnessResponse : BedrockResponse :=
  { content := "ok", model_id := "m", input_tokens := 3, output_tokens := 4,
    stop_reason := "end_turn", cost_estimate := 0 }

/-- Witness for claim C7 with the warning threshold of the spec scenario. -/
theorem claim_C7_witness :
    ("warning" ∈ validSeverities)
    ∧ (meets_severity_threshold "warning" "suggestion" = false
        ∧ meets_severity_threshold "warning" "error" = true) :=
  ⟨by decide,
   (claim_C7 ⟨"warning", 10⟩ "f.py" witnessResponse [] [] (by decide)).2.2⟩

/-- Embeds ReviewEngine._create_empty_file_result of review/engine.py. -/
def create_empty_file_result (filename : String) : FileReviewResult :=
  { filename := filename, issues := [], summary := .str "No issues found",
    total_issues := 0, error_count := 0, warning_count := 0, info_count := 0,
    suggestion_count := 0, tokens_used := 0, cost_estimate := 0 }

theorem review_file_batch_isolation
    (review_single_file review_failing : String → FileChange → Except String FileReviewResult)
    (f msg : String)
    (hother : ∀ g c, g ≠ f → review_failing g c = review_single_file g c)
    (hfail : ∀ c, review_failing f c = .error msg)
    (batch : List (String × FileChange)) :
    review_file_batch review_failing batch
      = (review_file_batch review_single_file batch).map
          (fun p => if p.1 = f then (f, create_error_result f msg) else p) := by
  unfold review_file_batch
  rw [List.map_map]
  apply List.map_congr_left
  intro p _
  obtain ⟨g, c⟩ := p
  by_cases hp : g = f
  · subst hp
    cases h : review_single_file g c <;>
      simp [Function.comp, hfail c, h]
  · cases h : review_single_file g c <;>
      simp [Function.comp, hother g c hp, h, hp]

/-- Claim C4: if reviewing one file fails, the batch handler produces for that
file exactly the one-issue system error result, and every other entry of every
batch is identical to the run in which no file failed. -/
theorem claim_C4
    (review_single_file review_failing : String → FileChange → Except String FileReviewResult)
    (f msg : String) (batches : List (List (String × FileChange)))
    (hother : ∀ g c, g ≠ f → review_failing g c = review_single_file g c)
    (hfail : ∀ c, review_failing f c = .error msg) :
    review_batches review_failing batches
      = (review_batches review_single_file batches).map
          (fun p => if p.1 = f then (f, create_error_result f msg) else p)
    ∧ (create_error_result f msg).issues.length = 1
    ∧ ∀ i ∈ (create_error_result f msg).issues,
        i.rule = .str "system" ∧ i.severity = "error"
        ∧ i.message = .str ("Review failed: " ++ msg) := by
  refine ⟨?_, rfl, ?_⟩
  · unfold review_batches
    rw [List.map_flatten, List.map_map]
    congr 1
    apply List.map_congr_left
    intro batch _
    exact review_file_batch_isolation review_single_file review_failing f msg
      hother hfail batch
  · intro i hi
    have : i = { rule := .str "system", severity := "error", line := none,
                 message := .str ("Review failed: " ++ msg), file_path := some f } := by
      simpa [create_error_result] using hi
    subst this
    exact ⟨rfl, rfl, rfl⟩

/-- Concrete healthy review function used by the C4 witness. -/
def witnessReviewOk : String → FileChange → Except String FileReviewResult :=
  fun g _ => .ok (create_empty_file_result g)

/-- Concrete review function failing only on x.py, used by the C4 witness. -/
def witnessReviewBad : String → FileChange → Except String FileReviewResult :=
  fun g c => if g = "x.py" then .error "boom" else witnessReviewOk g c

/-- Concrete two-batch change set used by the C4 witness. -/
def witnessBatches : List (List (String × FileChange)) :=
  [[("x.py", { filename := "x.py", status := "M", lines_added := 1, lines_removed := 0,
               diff := "dx" }),
    ("y.py", { filename := "y.py", status := "M", lines_added := 2, lines_removed := 0,
               diff := "dy" })],
   [("z.py", { filename := "z.py", status := "A", lines_added := 3, lines_removed := 0,
               diff := "dz" })]]

/-- Witness for claim C4: one failing file in a two-batch run. -/
theorem claim_C4_witness :
    ((∀ g c, g ≠ "x.py" → witnessReviewBad g c = witnessReviewOk g c)
      ∧ (∀ c, witnessReviewBad "x.py" c = .error "boom"))
    ∧ review_batches witnessReviewBad witnessBatches
        = (review_batches witnessReviewOk witnessBatches).map
            (fun p => if p.1 = "x.py" then ("x.py", create_error_result "x.py" "boom") else p) :=
  ⟨⟨fun g c hg => by simp [witnessReviewBad, hg], fun c => by simp [witnessReviewBad]⟩,
   (claim_C4 witnessReviewOk witnessReviewBad "x.py" "boom" witnessBatches
     (fun g c hg => by simp [witnessReviewBad, hg])
     (fun c => by simp [witnessReviewBad])).1⟩

theorem pyFind_eq_none {c : Char} : ∀ {s : List Char}, c ∉ s → pyFind c s = none
  | [], _ => rfl
  | a :: rest, h => by
    have hne : ¬ a = c := by
      intro e; subst e; exact h (List.mem_cons_self _ _)
    have ih : pyFind c rest = none :=
      pyFind_eq_none (fun hm => h (List.mem_cons_of_mem a hm))
    simp [pyFind, hne, ih]

theorem pyRFind_eq_none {c : Char} {s : List Char} (h : c ∉ s) : pyRFind c s = none := by
  unfold pyRFind
  rw [pyFind_eq_none (by simpa using h)]

theorem pyFind_append {c : Char} :
    ∀ {xs : List Char} (ys : List Char), c ∉ xs →
      pyFind c (xs ++ ys) = (pyFind c ys).map (fun k => xs.length + k)
  | [], ys, _ => by
    cases h : pyFind c ys <;> simp [h]
  | a :: xs, ys, h => by
    have hne : ¬ a = c := by
      intro e; subst e; exact h (List.mem_cons_self _ _)
    have ih := @pyFind_append c xs ys (fun hm => h (List.mem_cons_of_mem a hm))
    show (if a = c then some 0 else (pyFind c (xs ++ ys)).map (· + 1))
        = (pyFind c ys).map (fun k => (a :: xs).length + k)
    rw [if_neg hne, ih]
    cases hy : pyFind c ys with
    | none => rfl
    | some k =>
      show some (xs.length + k + 1) = some ((a :: xs).length + k)
      exact congrArg some (by simp only [List.length_cons]; omega)

theorem jsonSlice_decomp (pre mid post : List Char)
    (hpre : '\x7b' ∉ pre) (hpost : '\x7d' ∉ post) :
    jsonSlice (pre ++ ('\x7b' :: (mid ++ ['\x7d'])) ++ post)
      = some ('\x7b' :: (mid ++ ['\x7d'])) := by
  set js : List Char := '\x7b' :: (mid ++ ['\x7d']) with hjs
  have hlen : 1 ≤ js.length := by rw [hjs]; simp
  have hfind : pyFind '\x7b' (pre ++ js ++ post) = some pre.length := by
    rw [List.append_assoc, pyFind_append (js ++ post) hpre]
    have h0 : pyFind '\x7b' (js ++ post) = some 0 := by
      rw [hjs]; simp [pyFind]
    rw [h0]; simp
  have hrev : (pre ++ js ++ post).reverse
      = post.reverse ++ ('\x7d' :: (mid.reverse ++ ('\x7b' :: pre.reverse))) := by
    rw [hjs]; simp
  have h0 : pyFind '\x7d' ('\x7d' :: (mid.reverse ++ ('\x7b' :: pre.reverse))) = some 0 := by
    simp [pyFind]
  have hrfind : pyRFind '\x7d' (pre ++ js ++ post) = some (pre.length + js.length - 1) := by
    have hser : pyFind '\x7d' ((pre ++ js ++ post).reverse) = some post.length := by
      rw [hrev, pyFind_append _ (by simpa using hpost), h0]
      simp
    have hL : (pre ++ js ++ post).length = pre.length + js.length + post.length := by
      rw [List.length_append, List.length_append]
    unfold pyRFind
    simp only [hser, hL]
    have harith : pre.length + js.length + post.length - 1 - post.length
        = pre.length + js.length - 1 := by omega
    rw [harith]
  unfold jsonSlice
  simp only [hfind, hrfind]
  have harith2 : pre.length + js.length - 1 + 1 - pre.length = js.length := by omega
  rw [harith2]
  rw [List.append_assoc, List.drop_left, List.take_left]

theorem dropWhile_append_cons (p : Char → Bool) (a : Char) (ys : List Char)
    (ha : p a = false) :
    ∀ xs : List Char, (xs ++ a :: ys).dropWhile p = xs.dropWhile p ++ a :: ys
  | [] => by simp [List.dropWhile_cons, ha]
  | b :: xs => by
    by_cases hb : p b = true
    · simp [List.dropWhile_cons, hb, dropWhile_append_cons p a ys ha xs]
    · simp [List.dropWhile_cons, hb]

theorem pyStrip_decomp (pre mid post : List Char) :
    pyStrip (pre ++ ('\x7b' :: (mid ++ ['\x7d'])) ++ post)
      = (pre.dropWhile Char.isWhitespace) ++ ('\x7b' :: (mid ++ ['\x7d']))
          ++ (post.reverse.dropWhile Char.isWhitespace).reverse := by
  unfold pyStrip
  have h1 : (pre ++ ('\x7b' :: (mid ++ ['\x7d'])) ++ post).dropWhile Char.isWhitespace
      = pre.dropWhile Char.isWhitespace ++ ('\x7b' :: ((mid ++ ['\x7d']) ++ post)) := by
    rw [List.append_assoc, List.cons_append]
    exact dropWhile_append_cons _ _ _ (by decide) pre
  rw [h1]
  have h2 : (pre.dropWhile Char.isWhitespace ++ ('\x7b' :: ((mid ++ ['\x7d']) ++ post))).reverse
      = post.reverse ++ ('\x7d' :: (mid.reverse
          ++ ('\x7b' :: (pre.dropWhile Char.isWhitespace).reverse))) := by
    simp
  rw [h2, dropWhile_append_cons _ _ _ (by decide) post.reverse]
  simp

theorem mem_pyStrip {a : Char} {s : List Char} (h : a ∈ pyStrip s) : a ∈ s := by
  unfold pyStrip at h
  rw [List.mem_reverse] at h
  have h2 := (List.dropWhile_sublist _).subset h
  rw [List.mem_reverse] at h2
  exact (List.dropWhile_sublist _).subset h2

/-- Claim C5: response validation parses exactly the substring from the first
opening brace to the last closing brace, so a JSON object wrapped in prose is
still extracted and handed to the JSON parser; when the content has no such
braces, or the parsed object has no issues key, the outcome is the per-file
parse-error result rather than a run failure. -/
theorem claim_C5 (jsonLoads : List Char → Except String Json) (cfg : ReviewConfig)
    (filename : String) :
    (∀ (response : BedrockResponse) (pre mid post : List Char),
      response.content.data = pre ++ ('\x7b' :: (mid ++ ['\x7d'])) ++ post →
      '\x7b' ∉ pre → '\x7d' ∉ post →
      jsonSlice (pyStrip response.content.data) = some ('\x7b' :: (mid ++ ['\x7d']))
      ∧ parse_review_response jsonLoads cfg filename response
        = handle_parsed_response cfg filename response
            (jsonLoads ('\x7b' :: (mid ++ ['\x7d']))))
    ∧ (∀ response : BedrockResponse,
        ('\x7b' ∉ response.content.data ∨ '\x7d' ∉ response.content.data) →
        parse_review_response jsonLoads cfg filename response
          = create_error_result filename noJsonMessage)
    ∧ (∀ (response : BedrockResponse) (json_content : List Char)
        (entries : List (String × Json)),
        jsonSlice (pyStrip response.content.data) = some json_content →
        jsonLoads json_content = .ok (.obj entries) →
        entries.lookup "issues" = none →
        parse_review_response jsonLoads cfg filename response
          = create_error_result filename missingIssuesMessage) := by
  refine ⟨?_, ?_, ?_⟩
  · intro response pre mid post hdec hpre hpost
    have hpre2 : '\x7b' ∉ pre.dropWhile Char.isWhitespace :=
      fun hm => hpre ((List.dropWhile_sublist _).subset hm)
    have hpost2 : '\x7d' ∉ (post.reverse.dropWhile Char.isWhitespace).reverse := by
      intro hm
      rw [List.mem_reverse] at hm
      exact hpost (List.mem_reverse.mp ((List.dropWhile_sublist _).subset hm))
    have hslice : jsonSlice (pyStrip response.content.data)
        = some ('\x7b' :: (mid ++ ['\x7d'])) := by
      rw [hdec, pyStrip_decomp]
      exact jsonSlice_decomp _ mid _ hpre2 hpost2
    refine ⟨hslice, ?_⟩
    simp only [parse_review_response, hslice]
  · intro response h
    have hnone : jsonSlice (pyStrip response.content.data) = none := by
      unfold jsonSlice
      rcases h with h | h
      · rw [pyFind_eq_none (fun hm => h (mem_pyStrip hm))]
      · rw [pyRFind_eq_none (fun hm => h (mem_pyStrip hm))]
        cases hfx : pyFind '\x7b' (pyStrip response.content.data) <;> rfl
    simp only [parse_review_response, hnone]
  · intro response json_content entries hslice hloads hlookup
    simp only [parse_review_response, hslice, hloads]
    simp [handle_parsed_response, hlookup]

/-- Concrete JSON oracle used by the C5 witness. -/
def witnessJsonLoads : List Char → Except String Json := fun _ => .error "bad"

/-- Concrete response with prose around an empty JSON object, for the C5
witness. -/
def witnessParseResponse : BedrockResponse :=
  { content := "hi \x7b\x7d lo", model_id := "m", input_tokens := 1, output_tokens := 1,
    stop_reason := "end_turn", cost_estimate := 0 }

/-- Witness for claim C5: prose before and after a brace-delimited block. -/
theorem claim_C5_witness :
    (witnessParseResponse.content.data
        = "hi ".data ++ ('\x7b' :: (([] : List Char) ++ ['\x7d'])) ++ " lo".data
      ∧ '\x7b' ∉ "hi ".data ∧ '\x7d' ∉ " lo".data)
    ∧ (jsonSlice (pyStrip witnessParseResponse.content.data)
          = some ('\x7b' :: (([] : List Char) ++ ['\x7d']))
       ∧ parse_review_response witnessJsonLoads ⟨"warning", 10⟩ "w.py" witnessParseResponse
          = handle_parsed_response ⟨"warning", 10⟩ "w.py" witnessParseResponse
              (witnessJsonLoads ('\x7b' :: (([] : List Char) ++ ['\x7d'])))) :=
  ⟨⟨by decide, by decide, by decide⟩,
   (claim_C5 witnessJsonLoads ⟨"warning", 10⟩ "w.py").1 witnessParseResponse
     "hi ".data [] " lo".data (by decide) (by decide) (by decide)⟩

/-- Failure kinds raised by BedrockClient._invoke_model_once: every ClientError
or generic failure becomes a BedrockError, while a BotoCoreError becomes a
NetworkError, which is a sibling class and is not caught by the except
BedrockError clause of invoke_model. -/
inductive InvokeError where
  | bedrock (msg : String)
  | network (msg : String)
deriving DecidableEq

/-- Observable outcome of BedrockClient.invoke_model: the returned value or the
propagated failure, the number of attempts made, and the list of backoff sleeps
performed, in order. -/
structure InvokeTrace where
  result : Except InvokeError BedrockResponse
  calls : Nat
  sleeps : List ℚ

/-- Embeds the retry loop of BedrockClient.invoke_model, lines 125 to 133 of
bedrock/client.py.  The attempt oracle stands for _invoke_model_once at each
loop index; remaining counts the loop indices still to come, so remaining zero
is the iteration with attempt equal to retry_attempts, on which a BedrockError
is re-raised instead of retried.  The sleep of retry_delay times two to the
attempt precedes each retry. -/
def invoke_model_go (attemptOracle : Nat → Except InvokeError BedrockResponse)
    (retry_delay : ℚ) : Nat → Nat → InvokeTrace
  | attempt, 0 =>
    { result := attemptOracle attempt, calls := 1, sleeps := [] }
  | attempt, remaining + 1 =>
    match attemptOracle attempt with
    | .ok r => { result := .ok r, calls := 1, sleeps := [] }
    | .error (.network m) => { result := .error (.network m), calls := 1, sleeps := [] }
    | .error (.bedrock _) =>
      let rest := invoke_model_go attemptOracle retry_delay (attempt + 1) remaining
      { result := rest.result, calls := 1 + rest.calls,
        sleeps := (retry_delay * 2 ^ attempt) :: rest.sleeps }

/-- Embeds BedrockClient.invoke_model: the loop runs attempts zero through
retry_attempts. -/
def invoke_model (attemptOracle : Nat → Except InvokeError BedrockResponse)
    (retry_attempts : Nat) (retry_delay : ℚ) : InvokeTrace :=
  invoke_model_go attemptOracle retry_delay 0 retry_attempts

theorem invoke_model_go_bedrock (attemptOracle : Nat → Except InvokeError BedrockResponse)
    (retry_delay : ℚ) :
    ∀ (remaining attempt : Nat),
      (∀ k, attempt ≤ k → k ≤ attempt + remaining →
        ∃ m, attemptOracle k = .error (.bedrock m)) →
      invoke_model_go attemptOracle retry_delay attempt remaining
        = { result := attemptOracle (attempt + remaining), calls := remaining + 1,
            sleeps := (List.range' attempt remaining).map (fun k => retry_delay * 2 ^ k) }
  | 0, attempt, h => by
    simp [invoke_model_go]
  | remaining + 1, attempt, h => by
    obtain ⟨m, hm⟩ := h attempt (le_refl _) (Nat.le_add_right _ _)
    have ih := invoke_model_go_bedrock attemptOracle retry_delay remaining (attempt + 1)
      (fun k hk1 hk2 => h k (by omega) (by omega))
    simp only [invoke_model_go, hm, ih, InvokeTrace.mk.injEq]
    refine ⟨congrArg attemptOracle (by omega), by omega, ?_⟩
    rw [List.range'_succ, List.map_cons]

theorem invoke_model_go_network (attemptOracle : Nat → Except InvokeError BedrockResponse)
    (retry_delay : ℚ) (msg : String) :
    ∀ (i attempt remaining : Nat), i ≤ remaining →
      (∀ j, j < i → ∃ m, attemptOracle (attempt + j) = .error (.bedrock m)) →
      attemptOracle (attempt + i) = .error (.network msg) →
      invoke_model_go attemptOracle retry_delay attempt remaining
        = { result := .error (.network msg), calls := i + 1,
            sleeps := (List.range' attempt i).map (fun k => retry_delay * 2 ^ k) }
  | 0, attempt, remaining, hle, hj, hnet => by
    cases remaining with
    | zero => simp only [invoke_model_go]; rw [Nat.add_zero] at hnet; rw [hnet]; rfl
    | succ r => rw [Nat.add_zero] at hnet; simp [invoke_model_go, hnet]
  | i + 1, attempt, remaining, hle, hj, hnet => by
    obtain ⟨r, rfl⟩ : ∃ r, remaining = r + 1 := ⟨remaining - 1, by omega⟩
    obtain ⟨m, hm⟩ := hj 0 (Nat.succ_pos _)
    rw [Nat.add_zero] at hm
    have ih := invoke_model_go_network attemptOracle retry_delay msg i (attempt + 1) r
      (by omega)
      (fun j hji => by
        have := hj (j + 1) (by omega)
        rwa [show attempt + (j + 1) = attempt + 1 + j by omega] at this)
      (by rwa [show attempt + 1 + i = attempt + (i + 1) by omega])
    simp only [invoke_model_go, hm, ih, InvokeTrace.mk.injEq, true_and]
    refine ⟨by omega, ?_⟩
    rw [List.range'_succ, List.map_cons]

/-- Claim C6: when every attempt fails with a BedrockError, invoke_model makes
retry_attempts retries after the first attempt, sleeping retry_delay times two
to the attempt index before each retry, and propagates the failure of the final
attempt; a NetworkError is propagated from the first attempt on which it occurs
with no further attempts and no further sleeps. -/
theorem claim_C6 (attemptOracle : Nat → Except InvokeError BedrockResponse)
    (retry_attempts : Nat) (retry_delay : ℚ) :
    ((∀ k, k ≤ retry_attempts → ∃ m, attemptOracle k = .error (.bedrock m)) →
      invoke_model attemptOracle retry_attempts retry_delay
        = { result := attemptOracle retry_attempts, calls := retry_attempts + 1,
            sleeps := (List.range retry_attempts).map (fun k => retry_delay * 2 ^ k) })
    ∧ (∀ (i : Nat) (msg : String), i ≤ retry_attempts →
        (∀ j, j < i → ∃ m, attemptOracle j = .error (.bedrock m)) →
        attemptOracle i = .error (.network msg) →
        invoke_model attemptOracle retry_attempts retry_delay
          = { result := .error (.network msg), calls := i + 1,
              sleeps := (List.range i).map (fun k => retry_delay * 2 ^ k) }) := by
  constructor
  · intro h
    have := invoke_model_go_bedrock attemptOracle retry_delay retry_attempts 0
      (fun k hk1 hk2 => h k (by omega))
    rw [Nat.zero_add] at this
    unfold invoke_model
    rw [this, List.range_eq_range']
  · intro i msg hle hj hnet
    have := invoke_model_go_network attemptOracle retry_delay msg i 0 retry_attempts hle
      (fun j hji => by simpa using hj j hji)
      (by simpa using hnet)
    unfold invoke_model
    rw [this, List.range_eq_range']

/-- Concrete always-throttled oracle for the C6 witness. -/
def witnessOracle : Nat → Except InvokeError BedrockResponse :=
  fun k => .error (.bedrock ("throttled " ++ toString k))

/-- Witness for claim C6: three attempts, all failing retryably, with the two
exponential-backoff sleeps and the final failure propagated. -/
theorem claim_C6_witness :
    (∀ k, k ≤ 2 → ∃ m, witnessOracle k = .error (.bedrock m))
    ∧ invoke_model witnessOracle 2 1
        = { result := witnessOracle 2, calls := 3,
            sleeps := (List.range 2).map (fun k => (1 : ℚ) * 2 ^ k) } :=
  ⟨fun k _ => ⟨"throttled " ++ toString k, rfl⟩,
   (claim_C6 witnessOracle 2 1).1 (fun k _ => ⟨"throttled " ++ toString k, rfl⟩)⟩

/-- Embeds the dataclass ModelInfo of bedrock/models.py; USD prices per one
thousand tokens are exact rationals. -/
structure ModelInfo where
  model_id : String
  provider : String
  name : String
  description : String
  max_tokens : Nat
  input_cost_per_1k : ℚ
  output_cost_per_1k : ℚ
  context_window : Nat
  supports_system_prompt : Bool := true
  recommended_for_code : Bool := true
deriving DecidableEq

/-- Embeds ModelManager._initialize_models of bedrock/models.py: the static
catalog of the eight supported models. -/
def initialize_models : List (String × ModelInfo) :=
  [("anthropic.claude-3-5-sonnet-20241022-v2:0",
    { model_id := "anthropic.claude-3-5-sonnet-20241022-v2:0", provider := "anthropic",
      name := "Claude 3.5 Sonnet",
      description := "Most capable model for complex reasoning and code analysis",
      max_tokens := 8192, input_cost_per_1k := 0.003, output_cost_per_1k := 0.015,
      context_window := 200000 }),
   ("anthropic.claude-3-haiku-20240307-v1:0",
    { model_id := "anthropic.claude-3-haiku-20240307-v1:0", provider := "anthropic",
      name := "Claude 3 Haiku",
      description := "Fastest and most cost-effective model for simple tasks",
      max_tokens := 4096, input_cost_per_1k := 0.00025, output_cost_per_1k := 0.00125,
      context_window := 200000 }),
   ("anthropic.claude-3-sonnet-20240229-v1:0",
    { model_id := "anthropic.claude-3-sonnet-20240229-v1:0", provider := "anthropic",
      name := "Claude 3 Sonnet",
      description := "Balanced model for most use cases",
      max_tokens := 4096, input_cost_per_1k := 0.003, output_cost_per_1k := 0.015,
      context_window := 200000 }),
   ("meta.llama3-70b-instruct-v1:0",
    { model_id := "meta.llama3-70b-instruct-v1:0", provider := "meta",
      name := "Llama 3 70B Instruct",
      description := "Large language model good for complex reasoning",
      max_tokens := 2048, input_cost_per_1k := 0.00265, output_cost_per_1k := 0.0035,
      context_window := 8192 }),
   ("meta.llama3-8b-instruct-v1:0",
    { model_id := "meta.llama3-8b-instruct-v1:0", provider := "meta",
      name := "Llama 3 8B Instruct",
      description := "Smaller, faster model for basic tasks",
      max_tokens := 2048, input_cost_per_1k := 0.0003, output_cost_per_1k := 0.0006,
      context_window := 8192 }),
   ("cohere.command-r-plus-v1:0",
    { model_id := "cohere.command-r-plus-v1:0", provider := "cohere",
      name := "Command R+",
      description := "Advanced model for complex tasks and reasoning",
      max_tokens := 4000, input_cost_per_1k := 0.003, output_cost_per_1k := 0.015,
      context_window := 128000 }),
   ("cohere.command-r-v1:0",
    { model_id := "cohere.command-r-v1:0", provider := "cohere",
      name := "Command R",
      description := "Balanced model for general use cases",
      max_tokens := 4000, input_cost_per_1k := 0.0005, output_cost_per_1k := 0.0015,
      context_window := 128000 }),
   ("ai21.jamba-instruct-v1:0",
    { model_id := "ai21.jamba-instruct-v1:0", provider := "ai21",
      name := "Jamba Instruct",
      description := "Hybrid architecture model with long context",
      max_tokens := 4096, input_cost_per_1k := 0.0005, output_cost_per_1k := 0.0007,
      context_window := 256000 })]

/-- Embeds ModelManager.get_model_info: the ValueError raised for an
unregistered model id becomes the error case. -/
def get_model_info (model_id : String) : Except String ModelInfo :=
  match initialize_models.lookup model_id with
  | none => .error ("Unsupported model: " ++ model_id)
  | some info => .ok info

/-- Embeds ModelManager.is_model_supported. -/
def is_model_supported (model_id : String) : Bool :=
  (initialize_models.lookup model_id).isSome

/-- Embeds ModelManager.get_cost_estimate of bedrock/models.py: zero for an
unsupported model, otherwise the per-1k prices applied to the token counts.
The error branch is unreachable because support was just checked. -/
def get_cost_estimate (model_id : String) (input_tokens output_tokens : Nat) : ℚ :=
  if ¬ is_model_supported model_id then 0
  else
    match get_model_info model_id with
    | .ok model_info =>
      (input_tokens : ℚ) / 1000 * model_info.input_cost_per_1k
        + (output_tokens : ℚ) / 1000 * model_info.output_cost_per_1k
    | .error _ => 0

/-- Claim C10: for an unregistered model id get_cost_estimate returns zero
without failing while get_model_info fails; for a registered id the estimate is
input_tokens over one thousand times the input price plus output_tokens over
one thousand times the output price. -/
theorem claim_C10 :
    (∀ model_id : String, initialize_models.lookup model_id = none →
      (∀ input_tokens output_tokens : Nat,
        get_cost_estimate model_id input_tokens output_tokens = 0)
      ∧ get_model_info model_id = .error ("Unsupported model: " ++ model_id))
    ∧ (∀ (model_id : String) (model_info : ModelInfo),
        initialize_models.lookup model_id = some model_info →
        get_model_info model_id = .ok model_info
        ∧ ∀ input_tokens output_tokens : Nat,
          get_cost_estimate model_id input_tokens output_tokens
            = (input_tokens : ℚ) / 1000 * model_info.input_cost_per_1k
              + (output_tokens : ℚ) / 1000 * model_info.output_cost_per_1k) := by
  constructor
  · intro model_id hnone
    constructor
    · intro input_tokens output_tokens
      unfold get_cost_estimate is_model_supported
      rw [hnone]
      simp
    · unfold get_model_info
      rw [hnone]
  · intro model_id model_info hsome
    have hinfo : get_model_info model_id = .ok model_info := by
      unfold get_model_info
      rw [hsome]
    refine ⟨hinfo, ?_⟩
    intro input_tokens output_tokens
    unfold get_cost_estimate is_model_supported
    rw [hsome, hinfo]
    simp

/-- Witness for claim C10 at an unregistered id and at the registered Claude 3
Haiku id with one thousand input and two thousand output tokens. -/
theorem claim_C10_witness :
    (initialize_models.lookup "no-such-model" = none
      ∧ get_cost_estimate "no-such-model" 5 7 = 0
      ∧ get_model_info "no-such-model" = .error ("Unsupported model: " ++ "no-such-model"))
    ∧ ((initialize_models.lookup "anthropic.claude-3-haiku-20240307-v1:0").isSome = true
      ∧ get_cost_estimate "anthropic.claude-3-haiku-20240307-v1:0" 1000 2000 = 0.00275) := by
  have hnone : initialize_models.lookup "no-such-model" = none := by decide
  have h1 := claim_C10.1 "no-such-model" hnone
  refine ⟨⟨hnone, h1.1 5 7, h1.2⟩, by decide, ?_⟩
  have h2 := (claim_C10.2 "anthropic.claude-3-haiku-20240307-v1:0" _ rfl).2 1000 2000
  rw [h2]
  norm_num

end AICodeReview
